import Mathlib

/-
Verification of the Fluoddity-Core simulation/state-blending engine.

This file gives a shallow embedding, over exact rationals, of the host-side
logic of the repository:

* `sim.py` — `Sim.calculate_setting`, `Sim._calculate_weighted_trail_settings`,
  `Sim._calculate_circular_overlap`;
* `services/multi_load_service.py` — the multi-load registry
  (`add_config`, `remove_config`, `increment_progress`, `set_progress`);
* `services/rule_manager.py` — the bounded rule history
  (`push_rule`, `pop_rule`, `get_current_rule`);
* `services/entity_picker.py` — `EntityPicker.find_nearest_entity`;
* `utilities/frame_assembler.py` — `FrameAssembler.assemble_frame`
  (its resource-recreation and sample-gating logic);
* `services/config_saver.py` — `PhysicsConfig.to_dict` / `from_dict`.

Python floats are modelled as rationals (the algorithms use only field
operations, comparisons and floating modulo, so every claim below is about
the exact arithmetic the formulas denote).  Python dictionaries are modelled
by their key-to-value mapping, which is exactly what dictionary equality in
Python compares.
-/

namespace Fluoddity

/-! ## Python float modulo

Python's `x % y` on floats (for `y > 0`) is floored-division modulo:
`x - y * floor (x / y)`. `_calculate_circular_overlap` uses it to normalize
both window bounds into `[0, total_count)`. -/

/-- Python's floored-division modulo on rationals: `x % y = x - y * ⌊x / y⌋`. -/
def fmod (x y : ℚ) : ℚ := x - y * ⌊x / y⌋

theorem fmod_nonneg (x y : ℚ) (hy : 0 < y) : 0 ≤ fmod x y := by
  have h := Int.floor_le (x / y)
  have h2 : (⌊x / y⌋ : ℚ) * y ≤ (x / y) * y :=
    mul_le_mul_of_nonneg_right h (le_of_lt hy)
  rw [div_mul_cancel₀ x (ne_of_gt hy)] at h2
  simp only [fmod]
  nlinarith

theorem fmod_lt (x y : ℚ) (hy : 0 < y) : fmod x y < y := by
  have h := Int.lt_floor_add_one (x / y)
  have h2 : (x / y) * y < ((⌊x / y⌋ : ℚ) + 1) * y :=
    mul_lt_mul_of_pos_right h hy
  rw [div_mul_cancel₀ x (ne_of_gt hy)] at h2
  simp only [fmod]
  nlinarith

/-- The value `fmod x y` differs from `x` by an integer multiple of `y`. -/
theorem fmod_sub_int (x y : ℚ) : x - fmod x y = y * ⌊x / y⌋ := by
  simp [fmod]

theorem fmod_add_int_mul (x y : ℚ) (hy : 0 < y) (k : ℤ) :
    fmod (x + y * k) y = fmod x y := by
  have hy' : y ≠ 0 := ne_of_gt hy
  have : (x + y * k) / y = x / y + k := by
    field_simp
    ring
  simp only [fmod, this, Int.floor_add_int]
  push_cast
  ring

theorem fmod_eq_self (x y : ℚ) (h0 : 0 ≤ x) (hxy : x < y) : fmod x y = x := by
  have hy : 0 < y := lt_of_le_of_lt h0 hxy
  have : ⌊x / y⌋ = 0 := by
    rw [Int.floor_eq_zero_iff]
    constructor
    · positivity
    · rw [div_lt_one hy] at *
      simpa using hxy
  simp [fmod, this]

/-! ## `Sim._calculate_circular_overlap` (sim.py, lines 444-485)

Overlap between a window `[win_start, win_end)` and a config interval
`[cfg_start, cfg_end)` on a ring of circumference `total_count`.  Both window
bounds are first normalized with Python's `%`; when the normalized window
wraps past `0`, the overlap is accumulated over the two linear segments
`[win_start, total_count)` and `[0, win_end)`. -/

/-- Embedding of `Sim._calculate_circular_overlap`. -/
def calculate_circular_overlap (win_start win_end cfg_start cfg_end total_count : ℚ) : ℚ :=
  let ws := fmod win_start total_count
  let we := fmod win_end total_count
  if ws ≤ we then
    max 0 (min we cfg_end - max ws cfg_start)
  else
    (if ws < cfg_end then max 0 (min total_count cfg_end - max ws cfg_start) else 0)
      + (if cfg_start < we then max 0 (min we cfg_end - max 0 cfg_start) else 0)

/-! ## `Sim._calculate_weighted_trail_settings` (sim.py, lines 386-442)

Only the trail fields of a loaded config matter here. -/

/-- The two continuous fields of a loaded config that are blended host-side. -/
structure TrailConfig where
  trail_persistence : ℚ
  trail_diffusion : ℚ
deriving DecidableEq, Repr

/-- Embedding of `Sim._calculate_weighted_trail_settings`: the registry is
represented by its list of loaded configs together with `current_progress`
and `simultaneous_configs`.  Returns `(trail_persistence, trail_diffusion)`
weighted averages; `(0.938, 1.0)` is the hard-coded default. -/
def calculate_weighted_trail_settings (configs : List TrailConfig)
    (current_progress simultaneous_configs : ℚ) : ℚ × ℚ :=
  let config_count := configs.length
  if config_count = 0 then (469/500, 1)
  else
    let half_width : ℚ := simultaneous_configs / 2 + 1/1000
    let center : ℚ := current_progress * (config_count : ℚ) + half_width
    let acc := (List.range config_count).foldl
      (fun (acc : ℚ × ℚ × ℚ) (i : ℕ) =>
        let overlap := calculate_circular_overlap (center - half_width) (center + half_width)
          (i : ℚ) ((i : ℚ) + 1) (config_count : ℚ)
        if 0 < overlap then
          match configs.get? i with
          | some config =>
              (acc.1 + overlap * config.trail_persistence,
               acc.2.1 + overlap * config.trail_diffusion,
               acc.2.2 + overlap)
          | none => acc
        else acc)
      (0, 0, 0)
    if 0 < acc.2.2 then (acc.1 / acc.2.2, acc.2.1 / acc.2.2)
    else
      match configs.get? 0 with
      | some config => (config.trail_persistence, config.trail_diffusion)
      | none => (469/500, 1)

/-! ## `Sim.calculate_setting` (sim.py, lines 307-367)

Host-side mirror of the GLSL sweep evaluator: computes the effective value of
one physics parameter from its slider value, range, the entity's world
position in `[-1,1]²`, its cohort in `[0,1]`, and the three sweep modes
(`0` = off, `> 0` = normal, `< 0` = inverse). -/

/-- Embedding of `Sim.calculate_setting`.  The three sequential `if` blocks of
the Python source accumulate `result` and `active_sweeps`; they are written
out one axis after the other exactly as in the source. -/
def calculate_setting (slider_value min_value max_value : ℚ) (pos : ℚ × ℚ)
    (cohort : ℚ) (x_sweep y_sweep cohort_sweep : ℚ) : ℚ :=
  if x_sweep = 0 ∧ y_sweep = 0 ∧ cohort_sweep = 0 then slider_value
  else
    let pos_norm : ℚ × ℚ := ((pos.1 + 1) / 2, (pos.2 + 1) / 2)
    let result1 : ℚ :=
      if x_sweep ≠ 0 then
        (if 0 < x_sweep then min_value + (max_value - min_value) * pos_norm.1
         else max_value + (min_value - max_value) * pos_norm.1)
      else 0
    let active1 : ℕ := if x_sweep ≠ 0 then 1 else 0
    let result2 : ℚ :=
      if y_sweep ≠ 0 then
        result1 + (if 0 < y_sweep then min_value + (max_value - min_value) * pos_norm.2
                   else max_value + (min_value - max_value) * pos_norm.2)
      else result1
    let active2 : ℕ := if y_sweep ≠ 0 then active1 + 1 else active1
    let result3 : ℚ :=
      if cohort_sweep ≠ 0 then
        result2 + (if 0 < cohort_sweep then min_value + (max_value - min_value) * cohort
                   else max_value + (min_value - max_value) * cohort)
      else result2
    let active3 : ℕ := if cohort_sweep ≠ 0 then active2 + 1 else active2
    if 0 < active3 then result3 / (active3 : ℚ) else slider_value

/-- One axis of the sweep evaluator, as the spec words it: a normal sweep
(`0 < mode`) interpolates `min + (max-min)*t`, an inverse sweep interpolates
`max + (min-max)*t`. -/
def sweep_axis_value (mode t min_value max_value : ℚ) : ℚ :=
  if 0 < mode then min_value + (max_value - min_value) * t
  else max_value + (min_value - max_value) * t

/-- The sweep evaluator as described by the spec (for the refinement claim):
collect the active axes with their `[0,1]`-normalized coordinates, and return
the arithmetic mean of the active axes' interpolated values, or the slider
value when no axis is active. -/
def calculate_setting_spec (slider_value min_value max_value : ℚ) (pos : ℚ × ℚ)
    (cohort : ℚ) (x_sweep y_sweep cohort_sweep : ℚ) : ℚ :=
  let axes : List (ℚ × ℚ) :=
    [(x_sweep, (pos.1 + 1) / 2), (y_sweep, (pos.2 + 1) / 2), (cohort_sweep, cohort)]
  let active := axes.filter (fun a => decide (a.1 ≠ 0))
  if active.length = 0 then slider_value
  else (active.map (fun a => sweep_axis_value a.1 a.2 min_value max_value)).sum
    / (active.length : ℚ)

/-! ## `MultiLoadService` (services/multi_load_service.py)

The registry is parametric in the config payload: `add_config` and
`remove_config` never inspect the stored configs.  `MAX_CONFIGS = 64`. -/

/-- Capacity bound of the multi-load registry (`MAX_CONFIGS`). -/
def MAX_CONFIGS : ℕ := 64

/-- State of `MultiLoadService` (the SSBO dirty flag included; the assignment
mode and per-config override flags play no role in the verified operations
and are omitted). -/
structure MultiLoadService (Cfg : Type) where
  loaded_configs : List Cfg
  loaded_filenames : List String
  simultaneous_configs : ℚ
  progression_pace : ℚ
  current_progress : ℚ
  ssbo_dirty : Bool
deriving DecidableEq

/-- Embedding of `MultiLoadService.__init__`. -/
def MultiLoadService.init (Cfg : Type) : MultiLoadService Cfg :=
  { loaded_configs := []
    loaded_filenames := []
    simultaneous_configs := 1
    progression_pace := 0
    current_progress := 0
    ssbo_dirty := false }

/-- Embedding of `MultiLoadService.add_config`: refuses when the registry
already holds `MAX_CONFIGS` configs, otherwise appends, re-clamps
`simultaneous_configs`, and marks the SSBO dirty.  Returns the Python
boolean result together with the updated state. -/
def add_config {Cfg : Type} (s : MultiLoadService Cfg) (config : Cfg)
    (filename : String) : Bool × MultiLoadService Cfg :=
  if MAX_CONFIGS ≤ s.loaded_configs.length then (false, s)
  else
    let cfgs := s.loaded_configs ++ [config]
    let sim :=
      if (cfgs.length : ℚ) < s.simultaneous_configs then (cfgs.length : ℚ)
      else s.simultaneous_configs
    (true,
      { s with
        loaded_configs := cfgs
        loaded_filenames := s.loaded_filenames ++ [filename]
        simultaneous_configs := sim
        ssbo_dirty := true })

/-- Embedding of `MultiLoadService.remove_config` (the index is a Python
`int`, hence `ℤ`): refuses when the index is out of `[0, count)`, otherwise
removes, re-clamps `simultaneous_configs` (resetting it to `1.0` when the
registry becomes empty), and marks the SSBO dirty. -/
def remove_config {Cfg : Type} (s : MultiLoadService Cfg) (index : ℤ) :
    Bool × MultiLoadService Cfg :=
  if 0 ≤ index ∧ index < (s.loaded_configs.length : ℤ) then
    let cfgs := s.loaded_configs.eraseIdx index.toNat
    let sim :=
      if 0 < cfgs.length then min s.simultaneous_configs (cfgs.length : ℚ)
      else 1
    (true,
      { s with
        loaded_configs := cfgs
        loaded_filenames := s.loaded_filenames.eraseIdx index.toNat
        simultaneous_configs := sim
        ssbo_dirty := true })
  else (false, s)

/-- Embedding of `MultiLoadService.increment_progress`: when the pace is
positive, advance `current_progress` by `progression_pace / 1000` and wrap by
subtracting `1.0` once when the result reaches `1.0`. -/
def increment_progress {Cfg : Type} (s : MultiLoadService Cfg) :
    MultiLoadService Cfg :=
  if 0 < s.progression_pace then
    let p := s.current_progress + s.progression_pace / 1000
    { s with current_progress := if 1 ≤ p then p - 1 else p }
  else s

/-- Embedding of `MultiLoadService.set_progress`: clamp the slider value with
`max(0.0, min(1.0, value))`. -/
def set_progress {Cfg : Type} (s : MultiLoadService Cfg) (value : ℚ) :
    MultiLoadService Cfg :=
  { s with current_progress := max 0 (min 1 value) }

/-- Iterate `add_config` (with a fixed payload and filename) `n` times,
counting how many calls returned `True`. -/
def add_config_times : ℕ → MultiLoadService Unit × ℕ → MultiLoadService Unit × ℕ
  | 0, acc => acc
  | n + 1, (s, k) =>
    let r := add_config s () "config.json"
    add_config_times n (r.2, if r.1 then k + 1 else k)

/-! ## `RuleManager` (services/rule_manager.py)

Rules are 10×8 float matrices; `push_rule`/`pop_rule` never inspect them, so
the history is parametric in the rule type (instantiated at `ℕ` for the
concrete bound test so that pushed rules are distinguishable). -/

/-- History bound (`MAX_HISTORY_SIZE`). -/
def MAX_HISTORY_SIZE : ℕ := 200

/-- Fuel-indexed form of `RuleManager._trim_history`'s `while` loop: drop the
head while the history is longer than `MAX_HISTORY_SIZE`.  One unit of fuel
per loop iteration; the loop shortens the list by one each pass, so fuel
equal to the list length always suffices. -/
def trimAux {Rule : Type} : ℕ → List Rule → List Rule
  | 0, h => h
  | fuel + 1, h => if MAX_HISTORY_SIZE < h.length then trimAux fuel h.tail else h

/-- Embedding of `RuleManager._trim_history`. -/
def trim_history {Rule : Type} (h : List Rule) : List Rule :=
  trimAux h.length h

/-- Embedding of `RuleManager.push_rule`: append at the tail, then trim from
the head. -/
def push_rule {Rule : Type} (h : List Rule) (rule : Rule) : List Rule :=
  trim_history (h ++ [rule])

/-- Embedding of `RuleManager.pop_rule`: with more than one rule, drop the
tail and return the new tail; with exactly one rule, clear the history and
return `none` (the "use zero rule" sentinel); on an empty history return
`none` and leave the history empty.  The pair is (new history, returned
rule-or-sentinel). -/
def pop_rule {Rule : Type} (h : List Rule) : List Rule × Option Rule :=
  if 1 < h.length then (h.dropLast, h.dropLast.getLast?)
  else if h.length = 1 then ([], none)
  else (h, none)

/-- Embedding of `RuleManager.get_current_rule`: peek at the tail. -/
def get_current_rule {Rule : Type} (h : List Rule) : Option Rule :=
  h.getLast?

/-! ## `EntityPicker` (services/entity_picker.py)

The flat float32 entity buffer (stride 12: pos 2, vel 2, size 1, cohort 1,
padding 2, color 4) is modelled as a list of records; the picker only reads
the two position floats (buffer offsets 0 and 1) and the cohort float
(buffer offset 5). -/

/-- One entity record of the GPU buffer (the padding/color floats are never
read by the picker and are omitted). -/
structure Entity where
  pos_x : ℚ
  pos_y : ℚ
  vel_x : ℚ
  vel_y : ℚ
  size : ℚ
  cohort : ℚ
deriving DecidableEq, Inhabited

/-- Squared Euclidean distance, in `[0,1]²` texture space, between a query
point and an entity's position (converted from `[-1,1]` via `p/2 + 0.5`),
as computed inside `find_nearest_entity`. -/
def entity_dist_sq (tex_coords : ℚ × ℚ) (e : Entity) : ℚ :=
  let dx := (e.pos_x / 2 + 1/2) - tex_coords.1
  let dy := (e.pos_y / 2 + 1/2) - tex_coords.2
  dx * dx + dy * dy

/-- Linear scan behind `np.argmin`: keep the current best index and value,
replacing them only on a strictly smaller value, so the first occurrence of
the minimum wins. -/
def argminFrom : List ℚ → ℕ → ℕ → ℚ → ℕ
  | [], _, best_idx, _ => best_idx
  | x :: xs, i, best_idx, best_val =>
    if x < best_val then argminFrom xs (i + 1) i x
    else argminFrom xs (i + 1) best_idx best_val

/-- Embedding of `np.argmin` on a list of values (`0` on an empty list, a case
`find_nearest_entity` never reaches because the entity buffer is non-empty). -/
def argmin : List ℚ → ℕ
  | [] => 0
  | x :: xs => argminFrom xs 1 0 x

/-- Embedding of `EntityPicker.find_nearest_entity`: minimize the squared
texture-space distance over the buffer and return the arg-min index, that
entity's world-space position and its cohort float. -/
def find_nearest_entity (entities : List Entity) (tex_coords : ℚ × ℚ) :
    ℕ × (ℚ × ℚ) × ℚ :=
  let nearest_idx := argmin (entities.map (entity_dist_sq tex_coords))
  match entities.get? nearest_idx with
  | some e => (nearest_idx, (e.pos_x, e.pos_y), e.cohort)
  | none => (0, (0, 0), 0)

/-! ## `FrameAssembler` (utilities/frame_assembler.py)

Only the host-side control flow of `assemble_frame` is modelled: resource
recreation when `total_samples` or the input dimensions change, and the
final-sample gating of the returned accumulation texture.  GPU textures are
identified by opaque ids. -/

/-- The resource dictionary built by `setup_frame_assembly` (shader, quad and
framebuffer handles are irrelevant to the verified behavior and omitted). -/
structure FrameAssemblyResources where
  accumulation_texture : ℕ
  total_samples : ℤ
  width : ℤ
  height : ℤ
deriving DecidableEq

/-- Embedding of `setup_frame_assembly`: allocate a fresh accumulation
texture (`fresh_texture` stands for the id `ctx.texture` returns). -/
def setup_frame_assembly (width height total_samples : ℤ) (fresh_texture : ℕ) :
    FrameAssemblyResources :=
  { accumulation_texture := fresh_texture
    total_samples := total_samples
    width := width
    height := height }

/-- Embedding of `FrameAssembler.assemble_frame`: recreate the resources when
there are none yet or when `total_samples` or the input texture size changed;
render into the accumulation buffer; return the accumulation texture only on
the final sample (`current_sample_index == total_samples - 1`), else `None`.
The pair is (resources after the call, returned texture-or-`None`). -/
def assemble_frame (resources : Option FrameAssemblyResources)
    (input_width input_height total_samples current_sample_index : ℤ)
    (fresh_texture : ℕ) : FrameAssemblyResources × Option ℕ :=
  let recreate : Bool :=
    match resources with
    | none => true
    | some r =>
      decide (r.total_samples ≠ total_samples) || decide (r.width ≠ input_width)
        || decide (r.height ≠ input_height)
  let res :=
    match resources with
    | none => setup_frame_assembly input_width input_height total_samples fresh_texture
    | some r =>
      if recreate then
        setup_frame_assembly input_width input_height total_samples fresh_texture
      else r
  let final_sample : Bool := decide (current_sample_index = total_samples - 1)
  (res, if final_sample then some res.accumulation_texture else none)

/-! ## `PhysicsConfig` (services/config_saver.py)

Python dictionaries are modelled by their key-to-value mapping — exactly
what Python dict equality compares, so `d.update(e)` becomes right-biased
merge of mappings.  The 10×8 float32 rule matrix is a function
`Fin 10 → Fin 8 → ℚ`; `to_dict` flattens it row-major into the 80-entry
list `numpy.flatten().tolist()` produces, and `from_dict` reshapes with
`numpy.reshape(10, 8)` (row-major; on `to_dict` output the list always has
exactly 80 entries). -/

/-- A Python dict with string keys, modelled by its key-to-value mapping. -/
def PyDict (α : Type) : Type := String → Option α

/-- Python `base.update(upd)`: keys of `upd` win, remaining keys of `base`
survive. -/
def dict_update {α : Type} (base upd : PyDict α) : PyDict α :=
  fun k => (upd k).orElse (fun _ => base k)

/-- The list `PHYSICS_PARAMS` from config_saver.py. -/
def PHYSICS_PARAMS : List String :=
  ["AXIAL_FORCE", "LATERAL_FORCE", "SENSOR_GAIN", "MUTATION_SCALE",
   "DRAG", "STRAFE_POWER", "SENSOR_ANGLE", "GLOBAL_FORCE_MULT",
   "SENSOR_DISTANCE", "TRAIL_PERSISTENCE", "TRAIL_DIFFUSION", "HAZARD_RATE"]

/-- The table `DEFAULT_SLIDER_RANGES` from config_saver.py: label, default min, default
max. -/
def DEFAULT_SLIDER_RANGES : List (String × ℚ × ℚ) :=
  [("Axial Force", -1, 1), ("Lateral Force", -1, 1), ("Sensor Gain", 0, 5),
   ("Mutation Scale", -1/2, 1/2), ("Drag", -1, 1), ("Strafe Power", 0, 1/2),
   ("Sensor Angle", -1, 1), ("Global Force Mult", 0, 2),
   ("Sensor Distance", 0, 4), ("Trail Persistence", 0, 1),
   ("Trail Diffusion", 0, 1), ("Hazard Rate", 0, 1/20)]

/-- Embedding of `_default_sweeps()`: every physics parameter mapped to `0.0`. -/
def default_sweeps : PyDict ℚ :=
  fun p => if p ∈ PHYSICS_PARAMS then some 0 else none

/-- Embedding of `_default_slider_ranges()`: every slider label mapped to
`[default_min, default_max, default_min, default_max]`. -/
def default_slider_ranges : PyDict (List ℚ) :=
  fun label =>
    match DEFAULT_SLIDER_RANGES.find? (fun r => r.1 == label) with
    | some r => some [r.2.1, r.2.2, r.2.1, r.2.2]
    | none => none

/-- The `PhysicsConfig` dataclass: 12 physics scalars, slider ranges, the
three sweep maps and their enable flag, simulation settings, appearance
settings, and the 10×8 rule matrix. -/
structure PhysicsConfig where
  axial_force : ℚ
  lateral_force : ℚ
  sensor_gain : ℚ
  mutation_scale : ℚ
  drag : ℚ
  strafe_power : ℚ
  sensor_angle : ℚ
  global_force_mult : ℚ
  sensor_distance : ℚ
  trail_persistence : ℚ
  trail_diffusion : ℚ
  hazard_rate : ℚ
  slider_ranges : PyDict (List ℚ)
  x_sweeps : PyDict ℚ
  y_sweeps : PyDict ℚ
  cohort_sweeps : PyDict ℚ
  parameter_sweeps_enabled : Bool
  disable_symmetry : Bool
  absolute_orientation : ℤ
  orientation_mix : ℚ
  boundary_conditions : ℤ
  initial_conditions : ℤ
  num_cohorts : ℤ
  rule_seed : ℚ
  ink_weight : ℚ
  hue_sensitivity : ℚ
  color_by_cohort : Bool
  watercolor_mode : Bool
  emboss_mode : ℤ
  emboss_intensity : ℚ
  emboss_smoothness : ℚ
  rule : Fin 10 → Fin 8 → ℚ

/-- The JSON dict produced by `PhysicsConfig.to_dict`, with its nested
`physics` / `sweeps` / `settings` / `appearance` sub-dicts inlined
field-by-field. -/
structure ConfigDict where
  version : ℤ
  physics_axial_force : ℚ
  physics_lateral_force : ℚ
  physics_sensor_gain : ℚ
  physics_mutation_scale : ℚ
  physics_drag : ℚ
  physics_strafe_power : ℚ
  physics_sensor_angle : ℚ
  physics_global_force_mult : ℚ
  physics_sensor_distance : ℚ
  physics_trail_persistence : ℚ
  physics_trail_diffusion : ℚ
  physics_hazard_rate : ℚ
  slider_ranges : PyDict (List ℚ)
  sweeps_x : PyDict ℚ
  sweeps_y : PyDict ℚ
  sweeps_cohort : PyDict ℚ
  parameter_sweeps_enabled : Bool
  settings_disable_symmetry : Bool
  settings_absolute_orientation : ℤ
  settings_orientation_mix : ℚ
  settings_boundary_conditions : ℤ
  settings_initial_conditions : ℤ
  settings_num_cohorts : ℤ
  settings_rule_seed : ℚ
  appearance_ink_weight : ℚ
  appearance_hue_sensitivity : ℚ
  appearance_color_by_cohort : Bool
  appearance_watercolor_mode : Bool
  appearance_emboss_mode : ℤ
  appearance_emboss_intensity : ℚ
  appearance_emboss_smoothness : ℚ
  rule : List ℚ

/-- Embedding of `PhysicsConfig.to_dict` (`CONFIG_VERSION = 7`; the rule is
flattened row-major: entry `m` of the list is matrix entry
`(m / 8, m % 8)`). -/
def PhysicsConfig.to_dict (c : PhysicsConfig) : ConfigDict :=
  { version := 7
    physics_axial_force := c.axial_force
    physics_lateral_force := c.lateral_force
    physics_sensor_gain := c.sensor_gain
    physics_mutation_scale := c.mutation_scale
    physics_drag := c.drag
    physics_strafe_power := c.strafe_power
    physics_sensor_angle := c.sensor_angle
    physics_global_force_mult := c.global_force_mult
    physics_sensor_distance := c.sensor_distance
    physics_trail_persistence := c.trail_persistence
    physics_trail_diffusion := c.trail_diffusion
    physics_hazard_rate := c.hazard_rate
    slider_ranges := c.slider_ranges
    sweeps_x := c.x_sweeps
    sweeps_y := c.y_sweeps
    sweeps_cohort := c.cohort_sweeps
    parameter_sweeps_enabled := c.parameter_sweeps_enabled
    settings_disable_symmetry := c.disable_symmetry
    settings_absolute_orientation := c.absolute_orientation
    settings_orientation_mix := c.orientation_mix
    settings_boundary_conditions := c.boundary_conditions
    settings_initial_conditions := c.initial_conditions
    settings_num_cohorts := c.num_cohorts
    settings_rule_seed := c.rule_seed
    appearance_ink_weight := c.ink_weight
    appearance_hue_sensitivity := c.hue_sensitivity
    appearance_color_by_cohort := c.color_by_cohort
    appearance_watercolor_mode := c.watercolor_mode
    appearance_emboss_mode := c.emboss_mode
    appearance_emboss_intensity := c.emboss_intensity
    appearance_emboss_smoothness := c.emboss_smoothness
    rule := List.ofFn (fun m : Fin 80 =>
      c.rule ⟨m.val / 8, by have := m.isLt; omega⟩ ⟨m.val % 8, by omega⟩) }

/-- Embedding of `PhysicsConfig.from_dict`: scalar fields are read directly
(`absolute_orientation` through Python's `int()`, identity on integers); the
sweep maps and slider ranges are the default dicts updated with the stored
dicts; the rule list is reshaped row-major to 10×8. -/
def PhysicsConfig.from_dict (d : ConfigDict) : PhysicsConfig :=
  { axial_force := d.physics_axial_force
    lateral_force := d.physics_lateral_force
    sensor_gain := d.physics_sensor_gain
    mutation_scale := d.physics_mutation_scale
    drag := d.physics_drag
    strafe_power := d.physics_strafe_power
    sensor_angle := d.physics_sensor_angle
    global_force_mult := d.physics_global_force_mult
    sensor_distance := d.physics_sensor_distance
    trail_persistence := d.physics_trail_persistence
    trail_diffusion := d.physics_trail_diffusion
    hazard_rate := d.physics_hazard_rate
    slider_ranges := dict_update default_slider_ranges d.slider_ranges
    x_sweeps := dict_update default_sweeps d.sweeps_x
    y_sweeps := dict_update default_sweeps d.sweeps_y
    cohort_sweeps := dict_update default_sweeps d.sweeps_cohort
    parameter_sweeps_enabled := d.parameter_sweeps_enabled
    disable_symmetry := d.settings_disable_symmetry
    absolute_orientation := d.settings_absolute_orientation
    orientation_mix := d.settings_orientation_mix
    boundary_conditions := d.settings_boundary_conditions
    initial_conditions := d.settings_initial_conditions
    num_cohorts := d.settings_num_cohorts
    rule_seed := d.settings_rule_seed
    ink_weight := d.appearance_ink_weight
    hue_sensitivity := d.appearance_hue_sensitivity
    color_by_cohort := d.appearance_color_by_cohort
    watercolor_mode := d.appearance_watercolor_mode
    emboss_mode := d.appearance_emboss_mode
    emboss_intensity := d.appearance_emboss_intensity
    emboss_smoothness := d.appearance_emboss_smoothness
    rule := fun i j => d.rule.getD (i.val * 8 + j.val) 0 }

/-- The dataclass defaults of `PhysicsConfig` (`DEFAULT_RULE_SEED = 0.42`,
rule defaulting to the 10×8 zero matrix). -/
def default_physics_config : PhysicsConfig :=
  { axial_force := 371/1000
    lateral_force := -707/1000
    sensor_gain := 29/250
    mutation_scale := 0
    drag := 63/125
    strafe_power := 28/125
    sensor_angle := 9/20
    global_force_mult := 1
    sensor_distance := 1
    trail_persistence := 469/500
    trail_diffusion := 1
    hazard_rate := 0
    slider_ranges := default_slider_ranges
    x_sweeps := default_sweeps
    y_sweeps := default_sweeps
    cohort_sweeps := default_sweeps
    parameter_sweeps_enabled := false
    disable_symmetry := false
    absolute_orientation := 0
    orientation_mix := 1
    boundary_conditions := 0
    initial_conditions := 0
    num_cohorts := 64
    rule_seed := 21/50
    ink_weight := 1
    hue_sensitivity := 1/2
    color_by_cohort := true
    watercolor_mode := false
    emboss_mode := 0
    emboss_intensity := 1/2
    emboss_smoothness := 1/10
    rule := fun _ _ => 0 }

/-! ### Conservation law for the circular overlap

The per-config overlaps are a telescoping sum of the clamp function
`t ↦ min e (max s t)`. -/

theorem overlap_clamp_term (s e x y : ℚ) (hse : s ≤ e) (hxy : x ≤ y) :
    max 0 (min e y - max s x) = min e (max s y) - min e (max s x) := by
  simp only [min_def, max_def]
  split_ifs <;> linarith

theorem sum_overlap_units (s e : ℚ) (N : ℕ) (h0 : 0 ≤ s) (hse : s ≤ e)
    (heN : e ≤ (N : ℚ)) :
    ∑ i ∈ Finset.range N, max 0 (min e ((i : ℚ) + 1) - max s (i : ℚ)) = e - s := by
  have hstep : ∀ i ∈ Finset.range N,
      max 0 (min e ((i : ℚ) + 1) - max s (i : ℚ))
        = min e (max s (((i + 1 : ℕ)) : ℚ)) - min e (max s (i : ℚ)) := by
    intro i _
    have h := overlap_clamp_term s e (i : ℚ) ((i : ℚ) + 1) hse (by linarith)
    push_cast
    simpa using h
  have hsN : s ≤ (N : ℚ) := le_trans hse heN
  calc ∑ i ∈ Finset.range N, max 0 (min e ((i : ℚ) + 1) - max s (i : ℚ))
      = ∑ i ∈ Finset.range N,
          (min e (max s (((i + 1 : ℕ)) : ℚ)) - min e (max s (i : ℚ))) :=
        Finset.sum_congr rfl hstep
    _ = min e (max s ((N : ℕ) : ℚ)) - min e (max s ((0 : ℕ) : ℚ)) :=
        Finset.sum_range_sub (fun j : ℕ => min e (max s (j : ℚ))) N
    _ = e - s := by
        rw [max_eq_right hsN, min_eq_left heN]
        simp only [Nat.cast_zero, max_eq_left h0, min_eq_right hse]

/-- C1 (amended): for every ring of `N ≥ 1` configs and every window
`[a, b)`, the per-config overlaps computed by `_calculate_circular_overlap`
sum to `fmod (b - a) N` — the window width reduced modulo the ring
circumference — because the routine normalizes BOTH window bounds with `%`.
Consequently, for a window covering the full ring (`half_width ≥ N/2`, so
`b - a = 2·half_width ≥ N`) the sum is `fmod (2·half_width) N`, not the
ring circumference `N` that the original claim states, and the weighted
trail-settings average is taken over that residual window instead of
degenerating to the simple mean. -/
theorem circular_overlap_sum_eq_fmod (N : ℕ) (hN : 0 < N) (a b : ℚ) :
    ∑ i ∈ Finset.range N,
        calculate_circular_overlap a b (i : ℚ) ((i : ℚ) + 1) (N : ℚ)
      = fmod (b - a) (N : ℚ) := by
  have hNQ : (0 : ℚ) < (N : ℚ) := by exact_mod_cast hN
  set a' := fmod a (N : ℚ) with ha'
  set b' := fmod b (N : ℚ) with hb'
  have ha0 : 0 ≤ a' := fmod_nonneg a _ hNQ
  have haN : a' < (N : ℚ) := fmod_lt a _ hNQ
  have hb0 : 0 ≤ b' := fmod_nonneg b _ hNQ
  have hbN : b' < (N : ℚ) := fmod_lt b _ hNQ
  have hdecomp : fmod (b - a) (N : ℚ) = fmod (b' - a') (N : ℚ) := by
    have h1 : a - a' = (N : ℚ) * ⌊a / (N : ℚ)⌋ := fmod_sub_int a _
    have h2 : b - b' = (N : ℚ) * ⌊b / (N : ℚ)⌋ := fmod_sub_int b _
    have h3 : b - a
        = (b' - a') + (N : ℚ) * ((⌊b / (N : ℚ)⌋ - ⌊a / (N : ℚ)⌋ : ℤ) : ℚ) := by
      push_cast
      linarith
    rw [h3, fmod_add_int_mul (b' - a') (N : ℚ) hNQ _]
  by_cases hcase : a' ≤ b'
  · have hsum : ∀ i ∈ Finset.range N,
        calculate_circular_overlap a b (i : ℚ) ((i : ℚ) + 1) (N : ℚ)
          = max 0 (min b' ((i : ℚ) + 1) - max a' (i : ℚ)) := by
      intro i _
      simp only [calculate_circular_overlap]
      rw [← ha', ← hb', if_pos hcase]
    rw [Finset.sum_congr rfl hsum,
      sum_overlap_units a' b' N ha0 hcase (le_of_lt hbN), hdecomp,
      fmod_eq_self _ _ (by linarith) (by linarith)]
  · push_neg at hcase
    have hterm : ∀ i ∈ Finset.range N,
        calculate_circular_overlap a b (i : ℚ) ((i : ℚ) + 1) (N : ℚ)
          = max 0 (min (N : ℚ) ((i : ℚ) + 1) - max a' (i : ℚ))
            + max 0 (min b' ((i : ℚ) + 1) - max 0 (i : ℚ)) := by
      intro i _
      simp only [calculate_circular_overlap]
      rw [← ha', ← hb', if_neg (not_le.mpr hcase)]
      congr 1
      · by_cases hg : a' < (i : ℚ) + 1
        · rw [if_pos hg]
        · rw [if_neg hg]
          push_neg at hg
          symm
          have h1 : min (N : ℚ) ((i : ℚ) + 1) ≤ (i : ℚ) + 1 := min_le_right _ _
          have h2 : a' ≤ max a' (i : ℚ) := le_max_left _ _
          exact max_eq_left (by linarith)
      · by_cases hg : (i : ℚ) < b'
        · rw [if_pos hg]
        · rw [if_neg hg]
          push_neg at hg
          symm
          have h1 : min b' ((i : ℚ) + 1) ≤ b' := min_le_left _ _
          have h2 : (i : ℚ) ≤ max 0 (i : ℚ) := le_max_right _ _
          exact max_eq_left (by linarith)
    rw [Finset.sum_congr rfl hterm, Finset.sum_add_distrib,
      sum_overlap_units a' (N : ℚ) N ha0 (le_of_lt haN) le_rfl,
      sum_overlap_units 0 b' N le_rfl hb0 (le_of_lt hbN), hdecomp]
    have hshift : fmod (b' - a') (N : ℚ)
        = fmod ((b' - a' + (N : ℚ)) + (N : ℚ) * ((-1 : ℤ) : ℚ)) (N : ℚ) := by
      congr 1
      push_cast
      ring
    rw [hshift, fmod_add_int_mul _ _ hNQ,
      fmod_eq_self _ _ (by linarith) (by linarith)]
    ring

/-- Witness for C1's amended theorem: `N = 4`, window `[-1/2, 1/2)` — the
overlaps sum to the window width `1 = fmod 1 4`. -/
theorem circular_overlap_sum_eq_fmod_witness :
    0 < 4 ∧
      ∑ i ∈ Finset.range 4,
          calculate_circular_overlap (-1/2) (1/2) (i : ℚ) ((i : ℚ) + 1) ((4 : ℕ) : ℚ)
        = fmod (1/2 - (-1/2)) ((4 : ℕ) : ℚ) :=
  ⟨by decide, circular_overlap_sum_eq_fmod 4 (by decide) (-1/2) (1/2)⟩

/-- C1 as stated is false on the code.  With `N = 1` config, `progress = 0`
and `simultaneous_configs = 1` (so `half_width = 501/1000 ≥ N/2`), the window
passed by `_calculate_weighted_trail_settings` is
`[center - half_width, center + half_width) = [0, 1002/1000)`, and the
per-config overlaps sum to `1/500`, not the circumference `N = 1`: both
window bounds are reduced `% N`, collapsing a full-ring window to its excess
width.  With `N = 2`, `progress = 0`, `simultaneous_configs = 2`
(`half_width = 1001/1000 ≥ N/2`) and persistence values `0` and `1`, the
weighted persistence returned is `0`, not the simple mean `(0 + 1)/2`. -/
theorem full_window_overlap_counterexample :
    (∑ i ∈ Finset.range 1,
        calculate_circular_overlap (501/1000 - 501/1000) (501/1000 + 501/1000)
          (i : ℚ) ((i : ℚ) + 1) ((1 : ℕ) : ℚ)) = 1/500 ∧
    (1 : ℚ)/500 ≠ ((1 : ℕ) : ℚ) ∧
    (calculate_weighted_trail_settings [⟨0, 1⟩, ⟨1, 1⟩] 0 2).1 = 0 ∧
    ((0 : ℚ) + 1) / 2 ≠ 0 := by
  refine ⟨?_, by norm_num, ?_, by norm_num⟩
  · norm_num [calculate_circular_overlap, fmod, Finset.sum_range_succ]
  · norm_num [calculate_weighted_trail_settings, calculate_circular_overlap,
      fmod, List.range_succ]

/-- C2: with `N = 4` configs and the blend window `[-0.5, 0.5)` straddling
index 0, the normalized bounds are `3.5` and `0.5`, so the window wraps
(`fmod` start exceeds `fmod` end) and the two-segment split computes overlap
`0.5` for config 3 (`[3,4)`) and `0.5` for config 0 (`[0,1)`), summing to the
window's total width `1.0`. -/
theorem wraparound_overlap_split :
    fmod (-1/2 : ℚ) 4 = 7/2 ∧
    fmod (1/2 : ℚ) 4 = 1/2 ∧
    ¬ fmod (-1/2 : ℚ) 4 ≤ fmod (1/2 : ℚ) 4 ∧
    calculate_circular_overlap (-1/2) (1/2) 3 4 4 = 1/2 ∧
    calculate_circular_overlap (-1/2) (1/2) 0 1 4 = 1/2 ∧
    calculate_circular_overlap (-1/2) (1/2) 3 4 4
      + calculate_circular_overlap (-1/2) (1/2) 0 1 4 = 1 := by
  norm_num [calculate_circular_overlap, fmod]

/-- C3: `calculate_setting` returns the slider value when all three sweep
axes are 0, and otherwise returns the arithmetic mean, over the active axes,
of each axis's linear interpolation — `min + (max-min)*t` for a normal sweep
and `max + (min-max)*t` for an inverse sweep, with `t = (coord+1)/2` for the
position axes and `t = cohort` for the cohort axis — as captured by the
spec-side evaluator `calculate_setting_spec`. -/
theorem calculate_setting_matches_spec (slider_value min_value max_value : ℚ)
    (pos : ℚ × ℚ) (cohort x_sweep y_sweep cohort_sweep : ℚ) :
    calculate_setting slider_value min_value max_value pos cohort
        x_sweep y_sweep cohort_sweep
      = calculate_setting_spec slider_value min_value max_value pos cohort
        x_sweep y_sweep cohort_sweep := by
  by_cases hx : x_sweep = 0 <;> by_cases hy : y_sweep = 0 <;>
    by_cases hc : cohort_sweep = 0 <;>
    simp [calculate_setting, calculate_setting_spec, sweep_axis_value,
      hx, hy, hc] <;> ring_nf

/-- C4 as stated is false on the code: `set_progress` clamps with
`max(0.0, min(1.0, value))`, so `set_progress(1.0)` leaves
`current_progress = 1.0`, which is not in `[0, 1)`. -/
theorem set_progress_one_counterexample :
    (set_progress (MultiLoadService.init Unit) 1).current_progress = 1 ∧
    ¬ (set_progress (MultiLoadService.init Unit) 1).current_progress < 1 := by
  constructor
  · norm_num [set_progress, MultiLoadService.init]
  · norm_num [set_progress, MultiLoadService.init]

/-- C4 (amended): starting from any state with `current_progress ∈ [0, 1)`,
`increment_progress` (whose per-tick advance is `progression_pace / 1000`)
leaves `current_progress` in `[0, 1)` provided the per-tick advance is below
`1.0`; `set_progress` with any argument leaves `current_progress` in the
CLOSED interval `[0, 1]` — it equals `1.0` (outside `[0,1)`) exactly when the
argument is `≥ 1.0`. -/
theorem progress_ops_range {Cfg : Type} (s : MultiLoadService Cfg) (value : ℚ)
    (h0 : 0 ≤ s.current_progress) (h1 : s.current_progress < 1)
    (hpace : s.progression_pace / 1000 < 1) :
    (0 ≤ (increment_progress s).current_progress
      ∧ (increment_progress s).current_progress < 1) ∧
    (0 ≤ (set_progress s value).current_progress
      ∧ (set_progress s value).current_progress ≤ 1) ∧
    ((set_progress s value).current_progress = 1 ↔ 1 ≤ value) := by
  refine ⟨?_, ⟨le_max_left _ _, ?_⟩, ?_⟩
  · unfold increment_progress
    split_ifs with hp
    · simp only
      split_ifs with hw
      · exact ⟨by linarith, by linarith⟩
      · push_neg at hw
        have hpos : 0 < s.progression_pace / 1000 := by positivity
        exact ⟨by linarith, by linarith⟩
    · exact ⟨h0, h1⟩
  · simp only [set_progress]
    exact max_le (by norm_num) (min_le_left _ _)
  · simp only [set_progress]
    constructor
    · intro hmax
      by_contra hlt
      push_neg at hlt
      have hmin : min 1 value ≤ value := min_le_right _ _
      have : max 0 (min 1 value) < 1 := by
        rcases le_or_lt value 0 with hv | hv
        · have : min 1 value ≤ 0 := le_trans hmin hv
          simp only [max_eq_left this]
          norm_num
        · have h01 : min 1 value = value := min_eq_right (le_of_lt hlt)
          rw [h01, max_eq_right (le_of_lt hv)]
          exact hlt
      linarith [this, hmax.ge]
    · intro hv
      rw [min_eq_left hv]
      exact max_eq_right (by norm_num)

/-- Witness for C4's amended theorem: pace `500` (advance `1/2 < 1`),
progress `3/4`, slider argument `2`. -/
theorem progress_ops_range_witness :
    ((0 : ℚ) ≤ (⟨[], [], 1, 500, 3/4, false⟩ : MultiLoadService Unit).current_progress
      ∧ (⟨[], [], 1, 500, 3/4, false⟩ : MultiLoadService Unit).current_progress < 1
      ∧ (⟨[], [], 1, 500, 3/4, false⟩ : MultiLoadService Unit).progression_pace / 1000 < 1) ∧
    ((0 ≤ (increment_progress (⟨[], [], 1, 500, 3/4, false⟩ : MultiLoadService Unit)).current_progress
      ∧ (increment_progress (⟨[], [], 1, 500, 3/4, false⟩ : MultiLoadService Unit)).current_progress < 1) ∧
    (0 ≤ (set_progress (⟨[], [], 1, 500, 3/4, false⟩ : MultiLoadService Unit) 2).current_progress
      ∧ (set_progress (⟨[], [], 1, 500, 3/4, false⟩ : MultiLoadService Unit) 2).current_progress ≤ 1) ∧
    ((set_progress (⟨[], [], 1, 500, 3/4, false⟩ : MultiLoadService Unit) 2).current_progress = 1
      ↔ (1 : ℚ) ≤ 2)) :=
  ⟨⟨by norm_num, by norm_num, by norm_num⟩,
    progress_ops_range (⟨[], [], 1, 500, 3/4, false⟩ : MultiLoadService Unit) 2
      (by norm_num) (by norm_num) (by norm_num)⟩

/-- C5: for every resource state, input size, `total_samples = N ≥ 1` and
sample index `k ∈ [0, N-1]`, `assemble_frame` returns the (possibly just
recreated) accumulation texture exactly when `k = N - 1`, and returns `None`
(not ready) for every `k < N - 1`; with `N = 1` the single call at `k = 0`
always returns the finished frame. -/
theorem assemble_frame_gating (resources : Option FrameAssemblyResources)
    (w h N k : ℤ) (fresh : ℕ) (hN : 1 ≤ N) (hk0 : 0 ≤ k) (hk : k ≤ N - 1) :
    ((assemble_frame resources w h N k fresh).2
        = some (assemble_frame resources w h N k fresh).1.accumulation_texture
      ↔ k = N - 1) ∧
    (k < N - 1 → (assemble_frame resources w h N k fresh).2 = none) ∧
    (N = 1 → (assemble_frame resources w h N 0 fresh).2
        = some (assemble_frame resources w h N 0 fresh).1.accumulation_texture) := by
  unfold assemble_frame
  by_cases hfin : k = N - 1
  · refine ⟨by simp [hfin], fun hlt => absurd hfin (by omega), fun h1 => by simp [h1]⟩
  · refine ⟨by simp [hfin], fun _ => by simp [hfin], fun h1 => by simp [h1]⟩

/-- Witness for C5: fresh assembler, 128×128 input, `N = 4`, `k = 3`. -/
theorem assemble_frame_gating_witness :
    ((1 : ℤ) ≤ 4 ∧ (0 : ℤ) ≤ 3 ∧ (3 : ℤ) ≤ 4 - 1) ∧
    (((assemble_frame none 128 128 4 3 0).2
        = some (assemble_frame none 128 128 4 3 0).1.accumulation_texture
      ↔ (3 : ℤ) = 4 - 1) ∧
    ((3 : ℤ) < 4 - 1 → (assemble_frame none 128 128 4 3 0).2 = none) ∧
    ((4 : ℤ) = 1 → (assemble_frame none 128 128 4 0 0).2
        = some (assemble_frame none 128 128 4 0 0).1.accumulation_texture)) :=
  ⟨⟨by decide, by decide, by decide⟩,
    assemble_frame_gating none 128 128 4 3 0 (by decide) (by decide) (by decide)⟩

/-! ### Registry mutation lemmas -/

theorem add_config_full {Cfg : Type} (s : MultiLoadService Cfg) (c : Cfg)
    (fn : String) (h : MAX_CONFIGS ≤ s.loaded_configs.length) :
    add_config s c fn = (false, s) := by
  unfold add_config
  rw [if_pos h]

theorem add_config_success {Cfg : Type} (s : MultiLoadService Cfg) (c : Cfg)
    (fn : String) (h : s.loaded_configs.length < MAX_CONFIGS) :
    (add_config s c fn).1 = true ∧
    (add_config s c fn).2.loaded_configs.length = s.loaded_configs.length + 1 := by
  unfold add_config
  rw [if_neg (not_le.mpr h)]
  simp

theorem add_config_times_spec (n : ℕ) : ∀ (s : MultiLoadService Unit) (k : ℕ),
    s.loaded_configs.length + n ≤ MAX_CONFIGS →
    (add_config_times n (s, k)).1.loaded_configs.length
        = s.loaded_configs.length + n ∧
    (add_config_times n (s, k)).2 = k + n := by
  induction n with
  | zero =>
    intro s k _
    simp [add_config_times]
  | succ n ih =>
    intro s k h
    have hlt : s.loaded_configs.length < MAX_CONFIGS := by omega
    obtain ⟨hb, hl⟩ := add_config_success s () "config.json" hlt
    unfold add_config_times
    simp only [hb, if_true]
    obtain ⟨ha, hc⟩ := ih (add_config s () "config.json").2 (k + 1) (by omega)
    refine ⟨?_, ?_⟩
    · rw [ha, hl]
      omega
    · rw [hc]
      omega

theorem add_config_times_add (m n : ℕ) :
    ∀ p, add_config_times (m + n) p = add_config_times n (add_config_times m p) := by
  induction m with
  | zero =>
    intro p
    simp [add_config_times]
  | succ m ih =>
    intro p
    obtain ⟨s, k⟩ := p
    rw [show m + 1 + n = m + n + 1 by omega]
    simp only [add_config_times]
    exact ih _

/-- C6: out-of-bounds registry operations are boolean failures with no
partial mutation — `add_config` on a registry `s` holding 64 configs returns
`False` with the state (config list, filename list, `simultaneous_configs`,
dirty flag) unchanged, `remove_config` on ANY registry `t` with an index
outside `[0, count)` returns `False` with the state unchanged, and 65
`add_config` calls on an empty registry succeed exactly 64 times leaving
exactly 64 configs. -/
theorem registry_bounds_no_partial_mutation {Cfg : Type}
    (s t : MultiLoadService Cfg) (c : Cfg) (fn : String) (i : ℤ)
    (hfull : s.loaded_configs.length = 64)
    (hbad : ¬ (0 ≤ i ∧ i < (t.loaded_configs.length : ℤ))) :
    add_config s c fn = (false, s) ∧
    remove_config t i = (false, t) ∧
    (add_config_times 65 (MultiLoadService.init Unit, 0)).2 = 64 ∧
    (add_config_times 65 (MultiLoadService.init Unit, 0)).1.loaded_configs.length
      = 64 := by
  have h65 : (add_config_times 65 (MultiLoadService.init Unit, 0)).2 = 64 ∧
      (add_config_times 65
        (MultiLoadService.init Unit, 0)).1.loaded_configs.length = 64 := by
    obtain ⟨hlen, hcnt⟩ := add_config_times_spec 64 (MultiLoadService.init Unit) 0
      (by simp [MultiLoadService.init, MAX_CONFIGS])
    rw [show (65 : ℕ) = 64 + 1 by omega, add_config_times_add 64 1]
    rcases hP : add_config_times 64 (MultiLoadService.init Unit, 0) with ⟨S, K⟩
    rw [hP] at hlen hcnt
    simp only [MultiLoadService.init] at hlen hcnt
    have hSfull : add_config S () "config.json" = (false, S) :=
      add_config_full S () "config.json" (by simp [MAX_CONFIGS]; omega)
    simp only [add_config_times, hSfull]
    constructor
    · simpa using hcnt
    · simpa using hlen
  refine ⟨add_config_full s c fn (by simp [MAX_CONFIGS, hfull]), ?_, h65.1, h65.2⟩
  unfold remove_config
  rw [if_neg hbad]

/-- Witness for C6: a full registry of 64 unit configs for the add part, and
an out-of-range remove (index `0`) on the EMPTY — in particular non-full —
registry. -/
theorem registry_bounds_no_partial_mutation_witness :
    ((⟨List.replicate 64 (), List.replicate 64 "a", 1, 0, 0, false⟩ :
        MultiLoadService Unit).loaded_configs.length = 64 ∧
      ¬ ((0 : ℤ) ≤ 0 ∧ (0 : ℤ)
        < ((MultiLoadService.init Unit).loaded_configs.length : ℤ))) ∧
    (add_config (⟨List.replicate 64 (), List.replicate 64 "a", 1, 0, 0, false⟩ :
        MultiLoadService Unit) () "b"
      = (false, (⟨List.replicate 64 (), List.replicate 64 "a", 1, 0, 0, false⟩ :
        MultiLoadService Unit)) ∧
    remove_config (MultiLoadService.init Unit) 0
      = (false, MultiLoadService.init Unit) ∧
    (add_config_times 65 (MultiLoadService.init Unit, 0)).2 = 64 ∧
    (add_config_times 65 (MultiLoadService.init Unit, 0)).1.loaded_configs.length
      = 64) :=
  ⟨⟨by simp, by simp [MultiLoadService.init]⟩,
    registry_bounds_no_partial_mutation
      (⟨List.replicate 64 (), List.replicate 64 "a", 1, 0, 0, false⟩ :
        MultiLoadService Unit) (MultiLoadService.init Unit) () "b" 0
      (by simp) (by simp [MultiLoadService.init])⟩

/-- C7: pushing exactly one rule onto an empty history and popping returns
the "use zero rule" sentinel `none` (clearing the history), after which
`get_current_rule` returns `none` rather than the previously pushed rule;
and on any history of length > 1 — i.e. any `h ++ [a, b]` — `pop_rule`
removes the tail `b` and returns the new tail `a`. -/
theorem pop_rule_contract :
    (∀ rule : ℕ, pop_rule (push_rule [] rule) = ([], none) ∧
      get_current_rule (pop_rule (push_rule [] rule)).1 = none) ∧
    (∀ (h : List ℕ) (a b : ℕ), pop_rule (h ++ [a, b]) = (h ++ [a], some a)) := by
  constructor
  · intro rule
    simp [push_rule, trim_history, trimAux, pop_rule, get_current_rule,
      MAX_HISTORY_SIZE]
  · intro h a b
    have hlen : 1 < (h ++ [a, b]).length := by
      simp only [List.length_append, List.length_cons, List.length_nil]
      omega
    have hsplit : h ++ [a, b] = (h ++ [a]) ++ [b] := by simp
    unfold pop_rule
    rw [if_pos hlen, hsplit, List.dropLast_concat, List.getLast?_concat]

set_option maxRecDepth 100000 in
/-- C8: pushing 250 distinct rules onto an empty max-200 history retains
exactly the most-recently-pushed 200 in their original relative order (the
first 50 are dropped from the head), and in general `push_rule` always
leaves the history within the 200-rule bound. -/
theorem push_rule_bound :
    (List.range 250).foldl push_rule [] = (List.range 250).drop 50 ∧
    ∀ (h : List ℕ) (rule : ℕ), (push_rule h rule).length ≤ MAX_HISTORY_SIZE := by
  constructor
  · decide
  · intro h rule
    have haux : ∀ (fuel : ℕ) (l : List ℕ), l.length ≤ fuel + MAX_HISTORY_SIZE →
        (trimAux fuel l).length ≤ MAX_HISTORY_SIZE := by
      intro fuel
      induction fuel with
      | zero =>
        intro l hl
        simpa [trimAux] using hl
      | succ fuel ih =>
        intro l hl
        unfold trimAux
        split_ifs with hlong
        · exact ih l.tail (by simp [List.length_tail]; omega)
        · omega
    exact haux _ _ (by simp [push_rule])

/-! ### The argmin scan -/

theorem argminFrom_spec (xs : List ℚ) : ∀ (i best_idx : ℕ) (best_val : ℚ),
    (argminFrom xs i best_idx best_val = best_idx ∧ ∀ x ∈ xs, best_val ≤ x)
    ∨ (∃ k, k < xs.length ∧ argminFrom xs i best_idx best_val = i + k ∧
        xs.getD k 0 ≤ best_val ∧ ∀ x ∈ xs, xs.getD k 0 ≤ x) := by
  induction xs with
  | nil =>
    intro i bi bv
    left
    exact ⟨rfl, by simp⟩
  | cons x xs ih =>
    intro i bi bv
    by_cases hx : x < bv
    · right
      rcases ih (i + 1) i x with ⟨heq, hmin⟩ | ⟨k, hk, heq, hle, hmin⟩
      · refine ⟨0, by simp, ?_, ?_, ?_⟩
        · simp only [argminFrom, if_pos hx, heq]
          omega
        · simpa using le_of_lt hx
        · intro y hy
          rcases List.mem_cons.mp hy with h | h
          · simp [h]
          · simpa using hmin y h
      · refine ⟨k + 1, by simp only [List.length_cons]; omega, ?_, ?_, ?_⟩
        · simp only [argminFrom, if_pos hx, heq]
          omega
        · simp only [List.getD_cons_succ]
          linarith
        · intro y hy
          rcases List.mem_cons.mp hy with h | h
          · simp only [List.getD_cons_succ, h]
            linarith
          · simpa [List.getD_cons_succ] using hmin y h
    · push_neg at hx
      rcases ih (i + 1) bi bv with ⟨heq, hmin⟩ | ⟨k, hk, heq, hle, hmin⟩
      · left
        refine ⟨?_, ?_⟩
        · simp only [argminFrom, if_neg (not_lt.mpr hx), heq]
        · intro y hy
          rcases List.mem_cons.mp hy with h | h
          · rw [h]
            exact hx
          · exact hmin y h
      · right
        refine ⟨k + 1, by simp only [List.length_cons]; omega, ?_, ?_, ?_⟩
        · simp only [argminFrom, if_neg (not_lt.mpr hx), heq]
          omega
        · simp only [List.getD_cons_succ]
          exact hle
        · intro y hy
          rcases List.mem_cons.mp hy with h | h
          · simp only [List.getD_cons_succ, h]
            linarith
          · simpa [List.getD_cons_succ] using hmin y h

theorem getD_mem_of_lt (l : List ℚ) (j : ℕ) (h : j < l.length) : l.getD j 0 ∈ l := by
  rw [List.getD_eq_getElem l 0 h]
  exact List.getElem_mem h

theorem argmin_spec (l : List ℚ) (hne : l ≠ []) :
    argmin l < l.length ∧ ∀ j, j < l.length → l.getD (argmin l) 0 ≤ l.getD j 0 := by
  match l, hne with
  | x :: xs, _ =>
    rcases argminFrom_spec xs 1 0 x with ⟨heq, hmin⟩ | ⟨k, hk, heq, hle, hmin⟩
    · refine ⟨by simp [argmin, heq], ?_⟩
      intro j hj
      simp only [argmin, heq, List.getD_cons_zero]
      cases j with
      | zero => simp
      | succ j =>
        simp only [List.getD_cons_succ]
        exact hmin _ (getD_mem_of_lt xs j (by simpa using hj))
    · refine ⟨by simp only [argmin, heq, List.length_cons]; omega, ?_⟩
      intro j hj
      simp only [argmin, heq, show 1 + k = k + 1 from by omega, List.getD_cons_succ]
      cases j with
      | zero => simpa using hle
      | succ j =>
        simp only [List.getD_cons_succ]
        exact hmin _ (getD_mem_of_lt xs j (by simpa using hj))

/-- C9: for every non-empty entity buffer and every query UV coordinate in
`[0,1]²`, `find_nearest_entity` returns an in-range index minimizing the
squared Euclidean UV-space distance (positions converted from `[-1,1]` via
`p/2 + 0.5`) between the query and the entities, together with that entity's
world-space position and its stored cohort value (the 6th float of the
entity record). -/
theorem find_nearest_entity_correct (entities : List Entity) (tex : ℚ × ℚ)
    (hne : entities ≠ []) (h0x : 0 ≤ tex.1) (h1x : tex.1 ≤ 1)
    (h0y : 0 ≤ tex.2) (h1y : tex.2 ≤ 1) :
    (find_nearest_entity entities tex).1 < entities.length ∧
    (∀ j, j < entities.length →
      entity_dist_sq tex (entities.getD (find_nearest_entity entities tex).1 default)
        ≤ entity_dist_sq tex (entities.getD j default)) ∧
    (find_nearest_entity entities tex).2.1
      = ((entities.getD (find_nearest_entity entities tex).1 default).pos_x,
          (entities.getD (find_nearest_entity entities tex).1 default).pos_y) ∧
    (find_nearest_entity entities tex).2.2
      = (entities.getD (find_nearest_entity entities tex).1 default).cohort := by
  have hmapne : entities.map (entity_dist_sq tex) ≠ [] := by
    simpa using hne
  set m := argmin (entities.map (entity_dist_sq tex)) with hm
  obtain ⟨hlt, hmin⟩ := argmin_spec (entities.map (entity_dist_sq tex)) hmapne
  rw [← hm] at hlt hmin
  rw [List.length_map] at hlt
  have hget : entities.get? m = some (entities.get ⟨m, hlt⟩) := List.get?_eq_get hlt
  have hfind : find_nearest_entity entities tex
      = (m, ((entities.get ⟨m, hlt⟩).pos_x, (entities.get ⟨m, hlt⟩).pos_y),
          (entities.get ⟨m, hlt⟩).cohort) := by
    unfold find_nearest_entity
    rw [← hm]
    simp only [hget]
  have hgetD : entities.getD m default = entities.get ⟨m, hlt⟩ := by
    rw [List.getD_eq_getElem entities default hlt, List.get_eq_getElem]
  have emap : ∀ j, j < entities.length →
      (entities.map (entity_dist_sq tex)).getD j 0
        = entity_dist_sq tex (entities.getD j default) := by
    intro j hj
    rw [List.getD_eq_getElem _ _ (by simpa using hj), List.getElem_map,
      List.getD_eq_getElem _ _ hj]
  refine ⟨?_, ?_, ?_, ?_⟩
  · rw [hfind]
    exact hlt
  · intro j hj
    have h1 := hmin j (by simpa using hj)
    rw [emap m hlt, emap j hj] at h1
    rw [hfind]
    exact h1
  · rw [hfind, hgetD]
  · rw [hfind, hgetD]

/-- Witness for C9: two entities at world positions `(1,1)` and `(0,0)` with
cohorts `3/10` and `7/10`, queried at the UV center `(1/2, 1/2)` (the second
entity maps to UV `(1/2, 1/2)` exactly, so it is the nearest). -/
theorem find_nearest_entity_correct_witness :
    (([⟨1, 1, 0, 0, 0, 3/10⟩, ⟨0, 0, 0, 0, 0, 7/10⟩] : List Entity) ≠ [] ∧
      (0 : ℚ) ≤ (((1 : ℚ)/2, (1 : ℚ)/2) : ℚ × ℚ).1 ∧
      (((1 : ℚ)/2, (1 : ℚ)/2) : ℚ × ℚ).1 ≤ 1 ∧
      (0 : ℚ) ≤ (((1 : ℚ)/2, (1 : ℚ)/2) : ℚ × ℚ).2 ∧
      (((1 : ℚ)/2, (1 : ℚ)/2) : ℚ × ℚ).2 ≤ 1) ∧
    ((find_nearest_entity [⟨1, 1, 0, 0, 0, 3/10⟩, ⟨0, 0, 0, 0, 0, 7/10⟩]
        ((1 : ℚ)/2, (1 : ℚ)/2)).1
      < ([⟨1, 1, 0, 0, 0, 3/10⟩, ⟨0, 0, 0, 0, 0, 7/10⟩] : List Entity).length ∧
    (∀ j, j < ([⟨1, 1, 0, 0, 0, 3/10⟩, ⟨0, 0, 0, 0, 0, 7/10⟩] : List Entity).length →
      entity_dist_sq ((1 : ℚ)/2, (1 : ℚ)/2)
          (([⟨1, 1, 0, 0, 0, 3/10⟩, ⟨0, 0, 0, 0, 0, 7/10⟩] : List Entity).getD
            (find_nearest_entity [⟨1, 1, 0, 0, 0, 3/10⟩, ⟨0, 0, 0, 0, 0, 7/10⟩]
              ((1 : ℚ)/2, (1 : ℚ)/2)).1 default)
        ≤ entity_dist_sq ((1 : ℚ)/2, (1 : ℚ)/2)
          (([⟨1, 1, 0, 0, 0, 3/10⟩, ⟨0, 0, 0, 0, 0, 7/10⟩] : List Entity).getD j default)) ∧
    (find_nearest_entity [⟨1, 1, 0, 0, 0, 3/10⟩, ⟨0, 0, 0, 0, 0, 7/10⟩]
        ((1 : ℚ)/2, (1 : ℚ)/2)).2.1
      = ((([⟨1, 1, 0, 0, 0, 3/10⟩, ⟨0, 0, 0, 0, 0, 7/10⟩] : List Entity).getD
            (find_nearest_entity [⟨1, 1, 0, 0, 0, 3/10⟩, ⟨0, 0, 0, 0, 0, 7/10⟩]
              ((1 : ℚ)/2, (1 : ℚ)/2)).1 default).pos_x,
          (([⟨1, 1, 0, 0, 0, 3/10⟩, ⟨0, 0, 0, 0, 0, 7/10⟩] : List Entity).getD
            (find_nearest_entity [⟨1, 1, 0, 0, 0, 3/10⟩, ⟨0, 0, 0, 0, 0, 7/10⟩]
              ((1 : ℚ)/2, (1 : ℚ)/2)).1 default).pos_y) ∧
    (find_nearest_entity [⟨1, 1, 0, 0, 0, 3/10⟩, ⟨0, 0, 0, 0, 0, 7/10⟩]
        ((1 : ℚ)/2, (1 : ℚ)/2)).2.2
      = (([⟨1, 1, 0, 0, 0, 3/10⟩, ⟨0, 0, 0, 0, 0, 7/10⟩] : List Entity).getD
          (find_nearest_entity [⟨1, 1, 0, 0, 0, 3/10⟩, ⟨0, 0, 0, 0, 0, 7/10⟩]
            ((1 : ℚ)/2, (1 : ℚ)/2)).1 default).cohort) :=
  ⟨⟨by simp, by norm_num, by norm_num, by norm_num, by norm_num⟩,
    find_nearest_entity_correct [⟨1, 1, 0, 0, 0, 3/10⟩, ⟨0, 0, 0, 0, 0, 7/10⟩]
      ((1 : ℚ)/2, (1 : ℚ)/2) (by simp) (by norm_num) (by norm_num) (by norm_num)
      (by norm_num)⟩

/-! ### Round-trip of the config serialization -/

theorem dict_update_eq_self {α : Type} (base d : PyDict α)
    (hbase : ∀ k, d k = none → base k = none) :
    dict_update base d = d := by
  funext k
  unfold dict_update
  cases hk : d k with
  | some v => simp [hk, Option.orElse]
  | none =>
    simp only [hk, Option.orElse, Option.none_orElse]
    exact hbase k hk

theorem rule_flatten_reshape (rule : Fin 10 → Fin 8 → ℚ) (i : Fin 10) (j : Fin 8) :
    (List.ofFn (fun m : Fin 80 =>
        rule ⟨m.val / 8, by have := m.isLt; omega⟩ ⟨m.val % 8, by omega⟩)).getD
      (i.val * 8 + j.val) 0 = rule i j := by
  have hlt : i.val * 8 + j.val < 80 := by
    have := i.isLt
    have := j.isLt
    omega
  rw [List.getD_eq_getElem _ _ (by simpa using hlt), List.getElem_ofFn]
  congr 1
  · apply Fin.ext
    simp
    omega
  · apply Fin.ext
    simp
    omega

/-- C10 as stated is false on the code: a `PhysicsConfig` whose `x_sweeps`
dict is empty does not round-trip — `from_dict` merges the stored dict over
`_default_sweeps()`, so every missing parameter key reappears mapped to
`0.0` (here `"DRAG"`), and the reloaded config differs from the original in
the `x_sweeps` field. -/
theorem config_roundtrip_counterexample :
    (PhysicsConfig.from_dict (PhysicsConfig.to_dict
        { default_physics_config with x_sweeps := fun _ => none })).x_sweeps "DRAG"
      = some 0 ∧
    ({ default_physics_config with x_sweeps := fun _ => none } :
        PhysicsConfig).x_sweeps "DRAG" = none ∧
    PhysicsConfig.from_dict (PhysicsConfig.to_dict
        { default_physics_config with x_sweeps := fun _ => none })
      ≠ { default_physics_config with x_sweeps := fun _ => none } := by
  have h1 : (PhysicsConfig.from_dict (PhysicsConfig.to_dict
      { default_physics_config with x_sweeps := fun _ => none })).x_sweeps "DRAG"
      = some 0 := by
    simp only [PhysicsConfig.from_dict, PhysicsConfig.to_dict, dict_update,
      default_sweeps]
    norm_num [PHYSICS_PARAMS, Option.orElse]
  refine ⟨h1, rfl, ?_⟩
  intro heq
  have h2 := congrArg (fun c : PhysicsConfig => c.x_sweeps "DRAG") heq
  simp only at h2
  rw [h1] at h2
  exact Option.noConfusion h2

/-- C10 (amended): serialization round-trips for every `PhysicsConfig` whose
three sweep maps hold an entry for each of the 12 physics parameters and
whose slider-ranges map holds an entry for each of the 12 slider labels —
which is the case for every config built from the dataclass defaults or by
`from_dict` itself: `from_dict (to_dict c) = c` in every field — the 12
physics scalars, slider ranges, the three sweep maps, the sweeps-enabled
flag, simulation and appearance settings, rule seed, and the rule matrix
entry-for-entry. -/
theorem config_roundtrip (c : PhysicsConfig)
    (hx : ∀ p ∈ PHYSICS_PARAMS, (c.x_sweeps p).isSome)
    (hy : ∀ p ∈ PHYSICS_PARAMS, (c.y_sweeps p).isSome)
    (hc : ∀ p ∈ PHYSICS_PARAMS, (c.cohort_sweeps p).isSome)
    (hr : ∀ r ∈ DEFAULT_SLIDER_RANGES, (c.slider_ranges r.1).isSome) :
    PhysicsConfig.from_dict (PhysicsConfig.to_dict c) = c := by
  have hsw : ∀ (d : PyDict ℚ), (∀ p ∈ PHYSICS_PARAMS, (d p).isSome) →
      dict_update default_sweeps d = d := by
    intro d hd
    apply dict_update_eq_self
    intro k hk
    unfold default_sweeps
    rw [if_neg]
    intro hmem
    have hs := hd k hmem
    rw [hk] at hs
    simp at hs
  have hsl : ∀ (d : PyDict (List ℚ)),
      (∀ r ∈ DEFAULT_SLIDER_RANGES, (d r.1).isSome) →
      dict_update default_slider_ranges d = d := by
    intro d hd
    apply dict_update_eq_self
    intro k hk
    unfold default_slider_ranges
    cases hfind : DEFAULT_SLIDER_RANGES.find? (fun r => r.1 == k) with
    | none => rfl
    | some r =>
      exfalso
      have hmem : r ∈ DEFAULT_SLIDER_RANGES := List.mem_of_find?_eq_some hfind
      have hlab : r.1 = k := by
        have hp := List.find?_some hfind
        simpa using hp
      have hs := hd r hmem
      rw [hlab, hk] at hs
      simp at hs
  cases c with
  | mk axial lateral gain mscale drg strafe angle gmult sdist tpers tdiff haz
      sranges xsw ysw csw pse dsym aorient omix bcs ics ncoh rseed
      ink hue cbc wcm emode eint esm rulem =>
    simp only [PhysicsConfig.from_dict, PhysicsConfig.to_dict,
      PhysicsConfig.mk.injEq, true_and, and_true]
    refine ⟨?_, ?_, ?_, ?_, ?_⟩
    · exact hsl sranges hr
    · exact hsw xsw hx
    · exact hsw ysw hy
    · exact hsw csw hc
    · funext i j
      exact rule_flatten_reshape rulem i j

/-- Witness for C10's amended theorem: the dataclass-default config (whose
sweep maps and slider ranges carry all 12 keys) round-trips. -/
theorem config_roundtrip_witness :
    ((∀ p ∈ PHYSICS_PARAMS, (default_physics_config.x_sweeps p).isSome) ∧
     (∀ p ∈ PHYSICS_PARAMS, (default_physics_config.y_sweeps p).isSome) ∧
     (∀ p ∈ PHYSICS_PARAMS, (default_physics_config.cohort_sweeps p).isSome) ∧
     (∀ r ∈ DEFAULT_SLIDER_RANGES, (default_physics_config.slider_ranges r.1).isSome)) ∧
    PhysicsConfig.from_dict (PhysicsConfig.to_dict default_physics_config)
      = default_physics_config := by
  have hx : ∀ p ∈ PHYSICS_PARAMS, (default_physics_config.x_sweeps p).isSome := by
    intro p hp
    simp [default_physics_config, default_sweeps, hp]
  have hy : ∀ p ∈ PHYSICS_PARAMS, (default_physics_config.y_sweeps p).isSome := by
    intro p hp
    simp [default_physics_config, default_sweeps, hp]
  have hco : ∀ p ∈ PHYSICS_PARAMS, (default_physics_config.cohort_sweeps p).isSome := by
    intro p hp
    simp [default_physics_config, default_sweeps, hp]
  have hra : ∀ r ∈ DEFAULT_SLIDER_RANGES,
      (default_physics_config.slider_ranges r.1).isSome := by
    intro r hr
    simp only [default_physics_config, default_slider_ranges]
    cases hfind : DEFAULT_SLIDER_RANGES.find? (fun q => q.1 == r.1) with
    | some q => simp [hfind]
    | none =>
      exfalso
      rw [List.find?_eq_none] at hfind
      exact absurd (by simp) (hfind r hr)
  exact ⟨⟨hx, hy, hco, hra⟩, config_roundtrip default_physics_config hx hy hco hra⟩

end Fluoddity
